import Mathlib

set_option maxRecDepth 8000

/-!
Shallow embedding of the UCES procurement tracker (src/app.py): the dataset
loader (column normalization, date and numeric coercion), the filter layer and
the aggregation computations of the dashboard, together with proofs settling
the specification claims.

Python floats are modelled as exact rationals extended with the IEEE special
values (positive and negative infinity, NaN); rounding of finite values is not
modelled, and overflow of parsed literals to infinity is modelled at the
2^1024 threshold.
-/

/-- Value model of a Python float: a finite value (exact rational), the two
infinities, or NaN. -/
inductive PyFloat where
  | finite (q : ℚ)
  | inf
  | ninf
  | nan
deriving DecidableEq

/-- Addition with IEEE special-value semantics (NaN absorbs; inf + -inf = NaN). -/
def pyAdd : PyFloat → PyFloat → PyFloat
  | .nan, _ => .nan
  | _, .nan => .nan
  | .inf, .ninf => .nan
  | .ninf, .inf => .nan
  | .inf, _ => .inf
  | _, .inf => .inf
  | .ninf, _ => .ninf
  | _, .ninf => .ninf
  | .finite a, .finite b => .finite (a + b)

/-- Negation of a Python float. -/
def pyNeg : PyFloat → PyFloat
  | .finite a => .finite (-a)
  | .inf => .ninf
  | .ninf => .inf
  | .nan => .nan

/-- Subtraction of Python floats. -/
def pySub (a b : PyFloat) : PyFloat := pyAdd a (pyNeg b)

/-- Strict comparison; any comparison with NaN is false. -/
def pyLt : PyFloat → PyFloat → Bool
  | .nan, _ => false
  | _, .nan => false
  | .finite a, .finite b => decide (a < b)
  | .finite _, .inf => true
  | .finite _, .ninf => false
  | .inf, _ => false
  | .ninf, .ninf => false
  | .ninf, _ => true

/-- Non-strict comparison; any comparison with NaN is false. -/
def pyLe : PyFloat → PyFloat → Bool
  | .nan, _ => false
  | _, .nan => false
  | .finite a, .finite b => decide (a ≤ b)
  | .finite _, .inf => true
  | .finite _, .ninf => false
  | .inf, .inf => true
  | .inf, _ => false
  | .ninf, _ => true

/-- A Python float is negative when it is a finite negative value or -inf
(NaN is not negative). -/
def isNeg : PyFloat → Bool
  | .finite a => decide (a < 0)
  | .ninf => true
  | _ => false

/-- A Python float is finite when it is neither an infinity nor NaN. -/
def isFinite : PyFloat → Bool
  | .finite _ => true
  | _ => false

/-- Sum of a column as computed by pandas `.sum()`: NaN entries are skipped
(skipna default), the empty sum is 0.0. -/
def pySum (l : List PyFloat) : PyFloat :=
  (l.filter (fun x => x ≠ PyFloat.nan)).foldl pyAdd (.finite 0)

/-- Whitespace characters stripped by Python's str.strip and float parsing
(ASCII subset; exotic Unicode spaces are not modelled). -/
def isPyWs (c : Char) : Bool :=
  c = ' ' || c = '\t' || c = '\n' || c = '\x0d' || c = '\x0b' || c = '\x0c'

/-- Removal of leading and trailing whitespace from a character list. -/
def stripChars (l : List Char) : List Char :=
  ((l.dropWhile isPyWs).reverse.dropWhile isPyWs).reverse

/-- Python str.strip(): remove leading and trailing whitespace. -/
def pyStrip (s : String) : String := ⟨stripChars s.data⟩

/-- ASCII lower-casing of one character (for case-insensitive comparisons). -/
def lowerAscii (c : Char) : Char :=
  if 'A' ≤ c ∧ c ≤ 'Z' then Char.ofNat (c.toNat + 32) else c

/-- Optional leading sign: returns (isNegative, rest). -/
def parseSign (cs : List Char) : Bool × List Char :=
  match cs with
  | [] => (false, [])
  | c :: rest =>
      if c = '-' then (true, rest)
      else if c = '+' then (false, rest)
      else (false, c :: rest)

/-- Numeric value of a digit string (most significant first). -/
def digitsVal (ds : List Char) : Nat :=
  ds.foldl (fun a c => a * 10 + (c.toNat - 48)) 0

/-- Parse an unsigned decimal literal digits[.digits][(e|E)[sign]digits],
requiring at least one mantissa digit and full consumption of the input.
Digit-group underscores accepted by Python 3.6+ are not modelled (such inputs
are treated as unparseable, which only widens the set coerced to 0.0). -/
def parseDecimal (cs : List Char) : Option ℚ :=
  let ip := cs.takeWhile Char.isDigit
  let rest := cs.dropWhile Char.isDigit
  let fpRest : List Char × List Char :=
    match rest with
    | '.' :: r => (r.takeWhile Char.isDigit, r.dropWhile Char.isDigit)
    | _ => ([], rest)
  let fp := fpRest.1
  let rest2 := fpRest.2
  if ip.isEmpty ∧ fp.isEmpty then none
  else
    let mant : Nat := digitsVal ip * 10 ^ fp.length + digitsVal fp
    let den : Nat := 10 ^ fp.length
    match rest2 with
    | [] => some (mkRat (Int.ofNat mant) den)
    | 'e' :: r =>
        let sr := parseSign r
        let eds := sr.2.takeWhile Char.isDigit
        let r3 := sr.2.dropWhile Char.isDigit
        if eds.isEmpty ∨ ¬ r3.isEmpty then none
        else if sr.1 then some (mkRat (Int.ofNat mant) (den * 10 ^ digitsVal eds))
        else some (mkRat (Int.ofNat (mant * 10 ^ digitsVal eds)) den)
    | 'E' :: r =>
        let sr := parseSign r
        let eds := sr.2.takeWhile Char.isDigit
        let r3 := sr.2.dropWhile Char.isDigit
        if eds.isEmpty ∨ ¬ r3.isEmpty then none
        else if sr.1 then some (mkRat (Int.ofNat mant) (den * 10 ^ digitsVal eds))
        else some (mkRat (Int.ofNat (mant * 10 ^ digitsVal eds)) den)
    | _ => none

/-- Smallest magnitude at which a parsed literal overflows to infinity
(2^1024, the first value beyond the IEEE double range). -/
def overflowBound : ℚ := mkRat (Int.ofNat (((2 : Nat) ^ (256 : Nat)) ^ (4 : Nat))) 1

/-- Model of Python's float(str) constructor: strips surrounding whitespace,
reads an optional sign, accepts "inf"/"infinity"/"nan" case-insensitively,
otherwise parses a decimal literal; returns none where float() raises
ValueError. Out-of-range literals produce an infinity, as float() does. -/
def pythonFloat (s : String) : Option PyFloat :=
  let cs := stripChars s.data
  let sc := parseSign cs
  let neg := sc.1
  let low := sc.2.map lowerAscii
  if low = "inf".data ∨ low = "infinity".data then
    some (if neg then .ninf else .inf)
  else if low = "nan".data then some .nan
  else
    match parseDecimal sc.2 with
    | none => none
    | some q =>
        let q2 : ℚ := if neg then -q else q
        if q2 ≥ overflowBound then some .inf
        else if q2 ≤ -overflowBound then some .ninf
        else some (.finite q2)

/-- Python str.replace for a one-character pattern: replace every occurrence
of p with the string repl, scanning left to right. -/
def replace1 (p : Char) (repl : List Char) : List Char → List Char
  | [] => []
  | c :: cs => if c = p then repl ++ replace1 p repl cs else c :: replace1 p repl cs

/-- Python str.replace("RM", ""): delete every non-overlapping occurrence of
the two-character pattern "RM", scanning left to right. -/
def replaceRM : List Char → List Char
  | [] => []
  | 'R' :: 'M' :: cs => replaceRM cs
  | c :: cs => c :: replaceRM cs

/-- The cell-level numeric coercion of load_data (src/app.py lines 109-113):
float(str(val).replace(',', '').replace('RM', '').replace('-', '0').strip()),
returning 0.0 on any parse exception. Takes the already-stringified value. -/
def to_float (s : String) : PyFloat :=
  let t : List Char := replace1 '-' ['0'] (replaceRM (replace1 ',' [] s.data))
  match pythonFloat (pyStrip ⟨t⟩) with
  | some f => f
  | none => .finite 0

example : to_float "1,234.50" = .finite (mkRat 12345 10) := by decide
example : to_float "RM 500" = .finite (mkRat 500 1) := by decide
example : to_float "-" = .finite 0 := by decide
example : to_float "garbage" = .finite 0 := by decide
example : to_float "-500" = .finite (mkRat 500 1) := by decide
example : to_float "inf" = .inf := by decide
example : to_float "nan" = .nan := by decide

/-- Calendar date at day resolution (the model of a pandas Timestamp; the
time-of-day component is abstracted away, which the settled claims never
depend on). -/
structure CalDate where
  year : Int
  month : Nat
  day : Nat
deriving DecidableEq

/-- Day number of a civil date (days since 1970-01-01, proleptic Gregorian),
used to model subtraction of Timestamps at day resolution. -/
def dayNumber (dt : CalDate) : Int :=
  let m : Int := dt.month
  let d : Int := dt.day
  let y : Int := if m ≤ 2 then dt.year - 1 else dt.year
  let era : Int := Int.fdiv y 400
  let yoe : Int := y - era * 400
  let mAdj : Int := if 2 < m then m - 3 else m + 9
  let doy : Int := Int.fdiv (153 * mAdj + 2) 5 + d - 1
  let doe : Int := yoe * 365 + Int.fdiv yoe 4 - Int.fdiv yoe 100 + doy
  era * 146097 + doe - 719468

example : dayNumber ⟨1970, 1, 1⟩ = 0 := by decide
example : dayNumber ⟨2026, 1, 15⟩ = 20468 := by decide
example : dayNumber ⟨2026, 2, 10⟩ - dayNumber ⟨2026, 1, 15⟩ = 26 := by decide

/-- One spreadsheet cell as read by pandas: a string, a numeric value, a
datetime, or a missing value (None / NaN in an object column / NaT). -/
inductive Cell where
  | str (s : String)
  | num (f : PyFloat)
  | datetime (d : CalDate)
  | blank
deriving DecidableEq

/-- Fractional decimal digits of rem/den, at most fuel digits (truncated). -/
def fracDigits : Nat → Nat → Nat → List Char
  | 0, _, _ => []
  | fuel + 1, rem, den =>
      if rem = 0 then []
      else Char.ofNat (48 + rem * 10 / den) :: fracDigits fuel (rem * 10 % den) den

/-- Deterministic decimal rendering of a rational, standing in for Python's
repr of a float (exact for terminating decimals of at most 17 digits; the
claims only use that the rendering is a fixed function of the value). -/
def ratRepr (q : ℚ) : String :=
  let sign := if q.num < 0 then "-" else ""
  let n := q.num.natAbs
  let fr := fracDigits 17 (n % q.den) q.den
  sign ++ toString (n / q.den) ++ "." ++ (if fr.isEmpty then "0" else ⟨fr⟩)

/-- Python str() rendering of a float. -/
def pyFloatRepr : PyFloat → String
  | .finite q => ratRepr q
  | .inf => "inf"
  | .ninf => "-inf"
  | .nan => "nan"

/-- Two-digit zero padding. -/
def pad2 (n : Nat) : String := if n < 10 then "0" ++ toString n else toString n

/-- Python str() rendering of a pandas Timestamp at day resolution. -/
def dateRepr (dt : CalDate) : String :=
  toString dt.year ++ "-" ++ pad2 dt.month ++ "-" ++ pad2 dt.day ++ " 00:00:00"

/-- Python str(val) for a cell value, as applied by to_float. -/
def cellStr : Cell → String
  | .str s => s
  | .num f => pyFloatRepr f
  | .datetime d => dateRepr d
  | .blank => "None"

/-- The per-cell effect of df[col].apply(to_float).fillna(0) (src/app.py line
114): coerce with to_float, then replace a NaN result by 0. -/
def coerceNumCell (c : Cell) : Cell :=
  let f := to_float (cellStr c)
  .num (if f = .nan then .finite 0 else f)

/-- Modelled subset of pd.to_datetime(value, errors) for one value: an ISO
year-month-day string parses to a date, a datetime passes through, and every
other value (other string layouts, numbers, missing values) coerces to NaT.
The claims depend only on NaT-vs-parsed and on determinism, not on the
breadth of accepted layouts. -/
def parseDateStr (s : String) : Option CalDate :=
  let cs := (pyStrip s).data
  let yds := cs.takeWhile Char.isDigit
  let r1 := cs.dropWhile Char.isDigit
  match r1 with
  | '-' :: r2 =>
      let mds := r2.takeWhile Char.isDigit
      let r3 := r2.dropWhile Char.isDigit
      match r3 with
      | '-' :: r4 =>
          let dds := r4.takeWhile Char.isDigit
          let r5 := r4.dropWhile Char.isDigit
          if yds.length = 4 ∧ ¬ mds.isEmpty ∧ mds.length ≤ 2
              ∧ ¬ dds.isEmpty ∧ dds.length ≤ 2 ∧ r5.isEmpty
              ∧ 1 ≤ digitsVal mds ∧ digitsVal mds ≤ 12
              ∧ 1 ≤ digitsVal dds ∧ digitsVal dds ≤ 31 then
            some ⟨Int.ofNat (digitsVal yds), digitsVal mds, digitsVal dds⟩
          else none
      | _ => none
  | _ => none

/-- The per-cell effect of pd.to_datetime(df[col], errors) with coercion
(src/app.py line 100): unparseable values become NaT (modelled as blank). -/
def coerceDateCell : Cell → Cell
  | .datetime d => .datetime d
  | .str s =>
      match parseDateStr s with
      | some d => .datetime d
      | none => .blank
  | _ => .blank

example : coerceDateCell (.str "2026-01-15") = .datetime ⟨2026, 1, 15⟩ := by decide
example : coerceDateCell (.str "pending") = .blank := by decide

/-- Amount chain of load_data (src/app.py lines 49-52): rename pairs this
field contributes to renamed_cols. -/
def amountRename (cols : List String) : List (String × String) :=
  if "App_Amount" ∈ cols then []
  else if "Total_Paid" ∈ cols then [("Total_Paid", "App_Amount")]
  else if "Payment Amount" ∈ cols then [("Payment Amount", "App_Amount")]
  else if "Total Paid" ∈ cols then [("Total Paid", "App_Amount")]
  else []

/-- PO-value chain of load_data (src/app.py lines 55-58). -/
def poValueRename (cols : List String) : List (String × String) :=
  if "App_PO_Value" ∈ cols then []
  else if "Total_PO_Value" ∈ cols then [("Total_PO_Value", "App_PO_Value")]
  else if "Total PO Value" ∈ cols then [("Total PO Value", "App_PO_Value")]
  else if "Total PO Value " ∈ cols then [("Total PO Value ", "App_PO_Value")]
  else []

/-- Percentage chain of load_data (src/app.py lines 61-64). -/
def percentRename (cols : List String) : List (String × String) :=
  if "App_Percent" ∈ cols then []
  else if "Actual_Payment_%" ∈ cols then [("Actual_Payment_%", "App_Percent")]
  else if "Payment %" ∈ cols then [("Payment %", "App_Percent")]
  else if "Actual_Payment_% " ∈ cols then [("Actual_Payment_% ", "App_Percent")]
  else []

/-- Date chain of load_data (src/app.py lines 67-73). -/
def dateRename (cols : List String) : List (String × String) :=
  if "App_Date" ∈ cols then []
  else if "PO_Date" ∈ cols then [("PO_Date", "App_Date")]
  else if "PO DATE" ∈ cols then [("PO DATE", "App_Date")]
  else if "PO_Date " ∈ cols then [("PO_Date ", "App_Date")]
  else if "Invoice Date" ∈ cols then [("Invoice Date", "App_Date")]
  else if "Invoice Date " ∈ cols then [("Invoice Date ", "App_Date")]
  else if "PR DATE" ∈ cols then [("PR DATE", "App_Date")]
  else []

/-- Vendor chain of load_data (src/app.py lines 76-78). -/
def vendorRename (cols : List String) : List (String × String) :=
  if "Vendor_Name" ∈ cols then []
  else if "Vendor" ∈ cols then [("Vendor", "Vendor_Name")]
  else if "VENDOR" ∈ cols then [("VENDOR", "Vendor_Name")]
  else []

/-- Project-manager chain of load_data (src/app.py lines 81-83). -/
def pmRename (cols : List String) : List (String × String) :=
  if "Project_Manager" ∈ cols then []
  else if "Project Manager" ∈ cols then [("Project Manager", "Project_Manager")]
  else if "Project Manager " ∈ cols then [("Project Manager ", "Project_Manager")]
  else []

/-- The renamed_cols mapping built by load_data over the stripped header
list: the six per-field chains in source order (all synonym keys are
pairwise distinct, so the Python dict is this association list). -/
def renamedCols (cols : List String) : List (String × String) :=
  amountRename cols ++ poValueRename cols ++ percentRename cols
    ++ dateRename cols ++ vendorRename cols ++ pmRename cols

/-- df.rename(columns) applied to the header list: a header that is a key of
the mapping becomes its target, any other header is untouched. -/
def applyRenames (rcs : List (String × String)) (cols : List String) : List String :=
  cols.map (fun h =>
    match rcs.find? (fun p => p.1 == h) with
    | some p => p.2
    | none => h)

/-- Variant of the PO-value chain with the whitespace-suffixed synonym entry
removed, following the claim under examination. -/
def poValueRenameNoWS (cols : List String) : List (String × String) :=
  if "App_PO_Value" ∈ cols then []
  else if "Total_PO_Value" ∈ cols then [("Total_PO_Value", "App_PO_Value")]
  else if "Total PO Value" ∈ cols then [("Total PO Value", "App_PO_Value")]
  else []

/-- Variant of the percentage chain without the whitespace-suffixed entry. -/
def percentRenameNoWS (cols : List String) : List (String × String) :=
  if "App_Percent" ∈ cols then []
  else if "Actual_Payment_%" ∈ cols then [("Actual_Payment_%", "App_Percent")]
  else if "Payment %" ∈ cols then [("Payment %", "App_Percent")]
  else []

/-- Variant of the date chain without the two whitespace-suffixed entries. -/
def dateRenameNoWS (cols : List String) : List (String × String) :=
  if "App_Date" ∈ cols then []
  else if "PO_Date" ∈ cols then [("PO_Date", "App_Date")]
  else if "PO DATE" ∈ cols then [("PO DATE", "App_Date")]
  else if "Invoice Date" ∈ cols then [("Invoice Date", "App_Date")]
  else if "PR DATE" ∈ cols then [("PR DATE", "App_Date")]
  else []

/-- Variant of the project-manager chain without the whitespace-suffixed
entry. -/
def pmRenameNoWS (cols : List String) : List (String × String) :=
  if "Project_Manager" ∈ cols then []
  else if "Project Manager" ∈ cols then [("Project Manager", "Project_Manager")]
  else []

/-- The rename mapping with all five whitespace-suffixed synonym entries
removed, used to state the refinement claim about dead synonym entries. -/
def renamedColsNoWS (cols : List String) : List (String × String) :=
  amountRename cols ++ poValueRenameNoWS cols ++ percentRenameNoWS cols
    ++ dateRenameNoWS cols ++ vendorRename cols ++ pmRenameNoWS cols

/-- A raw tabular input after pd.read_excel: the header row and the cell
rows (each row listing one cell per header). -/
structure Table where
  headers : List String
  rows : List (List Cell)
deriving DecidableEq

/-- The load failure surfaced by load_data when a required column is missing
after normalization (src/app.py lines 90-93): the required internal column
name together with the full list of columns actually found. The source
signals it via st.error plus an empty-DataFrame return; it is the
MissingRequiredColumn failure of the specification. -/
inductive LoadError where
  | missingRequiredColumn (field : String) (found : List String)
deriving DecidableEq

/-- Replace the cells of every column named name by f applied to them. -/
def mapCol (name : String) (f : Cell → Cell) (t : Table) : Table :=
  ⟨t.headers,
   t.rows.map (fun r => (t.headers.zip r).map (fun hc => if hc.1 == name then f hc.2 else hc.2))⟩

/-- Append a new column with the same value in every row. -/
def addCol (name : String) (v : Cell) (t : Table) : Table :=
  ⟨t.headers ++ [name], t.rows.map (fun r => r ++ [v])⟩

/-- All cells of the columns named name, used for the column dtype test. -/
def colCells (name : String) (t : Table) : List Cell :=
  t.rows.flatMap (fun r =>
    (t.headers.zip r).filterMap (fun hc => if hc.1 == name then some hc.2 else none))

/-- Whether a cell is a datetime value. -/
def isDatetimeCell : Cell → Bool
  | .datetime _ => true
  | _ => false

/-- The date-handling step of load_data (src/app.py lines 96-103): if an
App_Date column exists it is left alone when already of datetime dtype
(modelled as all cells being datetimes) and otherwise coerced per cell with
NaT on failure; if absent, a column holding the current timestamp is
synthesized. -/
def handleDate (now : CalDate) (t : Table) : Table :=
  if "App_Date" ∈ t.headers then
    if (colCells "App_Date" t).all isDatetimeCell then t
    else mapCol "App_Date" coerceDateCell t
  else addCol "App_Date" (.datetime now) t

/-- The numeric columns coerced by load_data (src/app.py line 106). -/
def numericCols : List String := ["App_Amount", "App_PO_Value", "App_Percent"]

/-- The numeric-handling step of load_data (src/app.py lines 106-114). -/
def handleNumeric (t : Table) : Table :=
  numericCols.foldl (fun acc col => if col ∈ acc.headers then mapCol col coerceNumCell acc else acc) t

/-- The dataset loader load_data (src/app.py lines 35-116) as a pure function
of the parsed input table and the current timestamp: strip header names,
build and apply the rename mapping, fail when App_Amount is absent, then run
the date and numeric coercions. The source's st.cache_data memoization and
its error rendering are presentation concerns outside this function. -/
def loadData (t : Table) (now : CalDate) : Except LoadError Table :=
  let cols := t.headers.map pyStrip
  let rcs := renamedCols cols
  let cols2 := applyRenames rcs cols
  if "App_Amount" ∈ cols2 then
    .ok (handleNumeric (handleDate now ⟨cols2, t.rows⟩))
  else
    .error (.missingRequiredColumn "App_Amount" cols2)

/-- One row of the loaded dataset as the dashboard reads it: the canonical
columns App_Amount, App_PO_Value, App_Percent, App_Date, Vendor_Name,
Project_Manager, and the PO-number column used by the aging table as its
count column. Option.none models a missing value (NaN / NaT). -/
structure Row where
  amount : PyFloat
  poValue : PyFloat
  percent : PyFloat
  date : Option CalDate
  vendor : Option String
  pm : Option String
  poNo : Option String
deriving DecidableEq

/-- The 99.9 payment-threshold constant of the dashboard. -/
def pendThreshold : PyFloat := .finite (mkRat 999 10)

/-- Pending predicate App_Percent below 99.9 (src/app.py lines 161, 199, 309). -/
def isPending (r : Row) : Bool := pyLt r.percent pendThreshold

/-- Total Payments KPI (src/app.py line 156): sum of App_Amount over the
full loaded dataset. -/
def total_spend (df : List Row) : PyFloat := pySum (df.map Row.amount)

/-- Total PO Value KPI (src/app.py line 157): sum of App_PO_Value over the
full loaded dataset. -/
def total_po_value (df : List Row) : PyFloat := pySum (df.map Row.poValue)

/-- Unique Vendors KPI (src/app.py line 160): nunique of Vendor_Name, which
counts distinct non-missing values. -/
def unique_vendors (df : List Row) : Nat := (df.filterMap Row.vendor).dedup.length

/-- Pending / Partial POs KPI (src/app.py line 161): rows of the full loaded
dataset with App_Percent below 99.9. -/
def pending_pos (df : List Row) : Nat := (df.filter isPending).length

/-- Project-manager equality filter (src/app.py lines 189-190); selecting
All applies no filter, and a missing PM never equals a selection. -/
def pmFilter (pmSel : Option String) (df : List Row) : List Row :=
  match pmSel with
  | some p => df.filter (fun r => r.pm == some p)
  | none => df

/-- Contiguous-sublist test. -/
def subList (pat : List Char) : List Char → Bool
  | [] => pat.isEmpty
  | c :: cs => pat.isPrefixOf (c :: cs) || subList pat cs

/-- Case-insensitive substring test modelling pandas str.contains with
case=False and na=False for plain search text (regex metacharacters of the
search box are not modelled; no settled claim depends on them). -/
def containsCI (hay needle : String) : Bool :=
  subList (needle.data.map lowerAscii) (hay.data.map lowerAscii)

/-- Vendor search filter (src/app.py lines 192-193); an empty search string
is falsy and applies no filter, and a missing vendor never matches. -/
def vendorFilter (search : String) (df : List Row) : List Row :=
  if search = "" then df
  else df.filter (fun r =>
    match r.vendor with
    | some v => containsCI v search
    | none => false)

/-- Non-strict comparison App_Percent at or above threshold (NaN compares
false, as in Python). -/
def pyGe (a b : PyFloat) : Bool := pyLe b a

/-- The three payment-status radio choices (src/app.py lines 195-199). -/
inductive StatusFilter where
  | all
  | fullyPaid
  | pending
deriving DecidableEq

/-- Payment-status filter (src/app.py lines 195-199). -/
def statusFilter (s : StatusFilter) (df : List Row) : List Row :=
  match s with
  | .all => df
  | .fullyPaid => df.filter (fun r => pyGe r.percent pendThreshold)
  | .pending => df.filter isPending

/-- df_view (src/app.py lines 187-199): the three filters applied in source
order to the loaded dataset. -/
def df_view (df : List Row) (pmSel : Option String) (search : String) (s : StatusFilter) : List Row :=
  statusFilter s (vendorFilter search (pmFilter pmSel df))

/-- pending_df (src/app.py line 309): the pending subset of the view. -/
def pending_df (view : List Row) : List Row := view.filter isPending

/-- Age_Days of one pending row (src/app.py line 313): the day difference of
today and App_Date; subtracting NaT yields NaT whose .dt.days is NaN. -/
def ageDaysOf (today : CalDate) : Option CalDate → PyFloat
  | some d => .finite (mkRat (dayNumber today - dayNumber d) 1)
  | none => .nan

/-- get_age_bucket (src/app.py lines 317-321), with Python comparison
semantics: every comparison against NaN is false, so NaN falls through to
the 90+ branch. -/
def get_age_bucket (days : PyFloat) : String :=
  if pyLe days (.finite (mkRat 30 1)) then "0-30 Days"
  else if pyLe days (.finite (mkRat 60 1)) then "31-60 Days"
  else if pyLe days (.finite (mkRat 90 1)) then "61-90 Days"
  else "90+ Days"

/-- The four aging bucket labels, in the (alphabetical = chronological)
order pandas groupby produces. -/
def ageBucketLabels : List String := ["0-30 Days", "31-60 Days", "61-90 Days", "90+ Days"]

/-- Age_Bucket of one row (src/app.py line 323). -/
def agingBucketOf (today : CalDate) (r : Row) : String := get_age_bucket (ageDaysOf today r.date)

/-- The Count aggregate of aging_data for one bucket label (src/app.py
lines 326-331): pandas count tallies the non-missing values of the count
column (PO No when present, else the first column) within the group; a label
whose group is empty simply does not appear in aging_data, contributing 0. -/
def agingCount (today : CalDate) (view : List Row) (lab : String) : Nat :=
  ((pending_df view).filter (fun r => agingBucketOf today r == lab && r.poNo.isSome)).length

/-- Year-month key of a row (src/app.py line 265): to_period of App_Date;
NaT has no key and pandas groupby drops missing group keys. -/
def ymKey (r : Row) : Option (Int × Nat) := r.date.map (fun d => (d.year, d.month))

/-- Chronological (lexicographic) order on year-month keys. -/
def ymLe (a b : Int × Nat) : Prop := a.1 < b.1 ∨ (a.1 = b.1 ∧ a.2 ≤ b.2)

instance : DecidableRel ymLe := fun a b => by unfold ymLe; infer_instance

instance : IsTotal (Int × Nat) ymLe := ⟨by intro a b; unfold ymLe; omega⟩

instance : IsTrans (Int × Nat) ymLe := ⟨by intro a b c; unfold ymLe; omega⟩

/-- The distinct year-month keys of a view in chronological order, as pandas
groupby (sort enabled by default) produces them. -/
def monthlyKeys (view : List Row) : List (Int × Nat) :=
  List.insertionSort ymLe ((view.filterMap ymKey).dedup)

/-- One row of monthly_stats (src/app.py lines 267-272). -/
structure MonthRow where
  ym : Int × Nat
  paid : PyFloat
  poValue : PyFloat
  outstanding : PyFloat
deriving DecidableEq

/-- monthly_stats (src/app.py lines 264-272): group the view by year-month
of App_Date, sum Paid and PO_Value per group, and derive Outstanding as
PO_Value minus Paid. -/
def monthly_stats (view : List Row) : List MonthRow :=
  (monthlyKeys view).map (fun k =>
    let grp := view.filter (fun r => ymKey r == some k)
    let paid := pySum (grp.map Row.amount)
    let po := pySum (grp.map Row.poValue)
    ⟨k, paid, po, pySub po paid⟩)

/-- String rendering of a year-month period, as charted (astype(str)). -/
def ymStr (k : Int × Nat) : String := toString k.1 ++ "-" ++ pad2 k.2

/-- A pending row whose App_Date failed to parse (NaT). -/
def natDateRow : Row :=
  ⟨.finite 0, .finite 0, .finite (mkRat 50 1), Option.none, Option.none, Option.none, some "PO1"⟩

/-- A pending row dated 2026-01-15 with paid 100 and PO value 150. -/
def rowA : Row :=
  ⟨.finite (mkRat 100 1), .finite (mkRat 150 1), .finite (mkRat 50 1),
   some ⟨2026, 1, 15⟩, some "ACME Sdn Bhd", some "Alice", some "PO-001"⟩

/-- A fully paid row dated 2026-02-10 with paid 200 and PO value 200. -/
def rowB : Row :=
  ⟨.finite (mkRat 200 1), .finite (mkRat 200 1), .finite (mkRat 100 1),
   some ⟨2026, 2, 10⟩, some "Beta Works", some "Bob", some "PO-002"⟩

/-- A two-row loaded dataset used for concrete evaluations. -/
def exDf : List Row := [rowA, rowB]

/-- A raw table with an Amount synonym but no Date column. -/
def noDateTable : Table := ⟨["Total_Paid"], [[.num (.finite (mkRat 5 1))]]⟩

/-- A raw table with a Date synonym column holding one parseable and one
unparseable date. -/
def dateTable : Table :=
  ⟨["PO_Date", "Total_Paid"],
   [[.str "2026-01-15", .num (.finite (mkRat 100 1))],
    [.str "soon", .num (.finite (mkRat 7 2))]]⟩

/-- A raw table with no Amount synonym and no canonical App_Amount column. -/
def noAmountTable : Table := ⟨["Vendor", "Remarks"], [[.str "ACME", .blank]]⟩

/-- The decision table of the normalizer: each canonical column with its
synonym list in chain order (src/app.py lines 46-87). -/
def fieldTable : List (String × List String) :=
  [("App_Amount", ["Total_Paid", "Payment Amount", "Total Paid"]),
   ("App_PO_Value", ["Total_PO_Value", "Total PO Value", "Total PO Value "]),
   ("App_Percent", ["Actual_Payment_%", "Payment %", "Actual_Payment_% "]),
   ("App_Date", ["PO_Date", "PO DATE", "PO_Date ", "Invoice Date", "Invoice Date ", "PR DATE"]),
   ("Vendor_Name", ["Vendor", "VENDOR"]),
   ("Project_Manager", ["Project Manager", "Project Manager "])]

/-- The rename pairs of a mapping that target one canonical column. -/
def renamesTo (canon : String) (rcs : List (String × String)) : List (String × String) :=
  rcs.filter (fun p => p.2 == canon)

/-- The PM stage of df_view as a single boolean predicate (All selects
everything). -/
def pmPred (pmSel : Option String) (r : Row) : Bool :=
  match pmSel with
  | some p => r.pm == some p
  | none => true

/-- The vendor-search stage of df_view as a single boolean predicate (an
empty search selects everything). -/
def vendorPred (search : String) (r : Row) : Bool :=
  if search = "" then true
  else
    match r.vendor with
    | some v => containsCI v search
    | none => false

/-- The status stage of df_view as a single boolean predicate. -/
def statusPred (s : StatusFilter) (r : Row) : Bool :=
  match s with
  | .all => true
  | .fullyPaid => pyGe r.percent pendThreshold
  | .pending => isPending r

/-- Decidable equality of load results. -/
instance : DecidableEq (Except LoadError Table) := fun a b =>
  match a, b with
  | .ok x, .ok y =>
      if h : x = y then .isTrue (by rw [h]) else .isFalse (by intro e; cases e; exact h rfl)
  | .error x, .error y =>
      if h : x = y then .isTrue (by rw [h]) else .isFalse (by intro e; cases e; exact h rfl)
  | .ok _, .error _ => .isFalse (by intro e; cases e)
  | .error _, .ok _ => .isFalse (by intro e; cases e)

/-- The flat decision-table lookup of one canonical field (the ordered
synonym-list form of the specification): no rename when the canonical name
is already present, otherwise the first synonym found in priority order is
renamed, and none if no synonym matches. Each source elif chain is proved
equal to this form. -/
def chainRename (canon : String) (syns : List String) (cols : List String) :
    List (String × String) :=
  if canon ∈ cols then []
  else
    match syns.find? (fun x => decide (x ∈ cols)) with
    | some s => [(s, canon)]
    | none => []

/-! Helper lemmas. -/

lemma not_mem_replace1 {p : Char} {repl : List Char} (hp : p ∉ repl) :
    ∀ l, p ∉ replace1 p repl l := by
  intro l
  induction l with
  | nil => simp [replace1]
  | cons c cs ih =>
      by_cases hc : c = p
      · simp only [replace1, if_pos hc, List.mem_append]
        rintro (h | h)
        · exact hp h
        · exact ih h
      · simp only [replace1, if_neg hc, List.mem_cons]
        rintro (h | h)
        · exact hc h.symm
        · exact ih h

lemma mem_stripChars {c : Char} {l : List Char} (h : c ∈ stripChars l) : c ∈ l := by
  unfold stripChars at h
  rw [List.mem_reverse] at h
  have h2 := (List.dropWhile_sublist _ (l := (l.dropWhile isPyWs).reverse)).subset h
  rw [List.mem_reverse] at h2
  exact (List.dropWhile_sublist _ (l := l)).subset h2

lemma parseSign_fst_false {cs : List Char} (h : '-' ∉ cs) : (parseSign cs).1 = false := by
  cases cs with
  | nil => rfl
  | cons c rest =>
      have hc : ¬ c = '-' := fun e => h (e ▸ List.mem_cons_self c rest)
      simp only [parseSign, if_neg hc]
      split <;> rfl

lemma parseSign_snd_subset (cs : List Char) : (parseSign cs).2 ⊆ cs := by
  cases cs with
  | nil => exact fun x hx => hx
  | cons c rest =>
      simp only [parseSign]
      split
      · exact fun x hx => List.mem_cons_of_mem _ hx
      · split
        · exact fun x hx => List.mem_cons_of_mem _ hx
        · exact fun x hx => hx

lemma parseDecimal_nonneg {cs : List Char} {q : ℚ} (h : parseDecimal cs = some q) : 0 ≤ q := by
  unfold parseDecimal at h
  dsimp only at h
  split at h
  · exact absurd h (by simp)
  · split at h
    · injection h with h'
      subst h'
      exact Rat.mkRat_nonneg (Int.ofNat_nonneg _) _
    · split at h
      · exact absurd h (by simp)
      · split at h <;>
          · injection h with h'
            subst h'
            exact Rat.mkRat_nonneg (Int.ofNat_nonneg _) _
    · split at h
      · exact absurd h (by simp)
      · split at h <;>
          · injection h with h'
            subst h'
            exact Rat.mkRat_nonneg (Int.ofNat_nonneg _) _
    · exact absurd h (by simp)

lemma overflowBound_pos : 0 < overflowBound := by
  unfold overflowBound
  rw [Rat.mkRat_one]
  positivity

lemma pythonFloat_not_neg {s : String} (hs : '-' ∉ s.data) {f : PyFloat}
    (hf : pythonFloat s = some f) : isNeg f = false := by
  have hcs : '-' ∉ stripChars s.data := fun hc => hs (mem_stripChars hc)
  unfold pythonFloat at hf
  dsimp only at hf
  rw [parseSign_fst_false hcs] at hf
  simp only [Bool.false_eq_true, if_false] at hf
  split at hf
  · injection hf with h'
    subst h'
    rfl
  · split at hf
    · injection hf with h'
      subst h'
      rfl
    · split at hf
      · exact absurd hf (by simp)
      · rename_i q hq
        split at hf
        · injection hf with h'
          subst h'
          rfl
        · split at hf
          · rename_i hle
            have hq0 : 0 ≤ q := parseDecimal_nonneg hq
            have : (0 : ℚ) < -overflowBound := lt_of_le_of_lt (le_trans hq0 hle) (by linarith [overflowBound_pos])
            linarith [overflowBound_pos]
          · injection hf with h'
            subst h'
            simp [isNeg, not_lt.mpr (parseDecimal_nonneg hq)]

lemma to_float_nonneg (s : String) : isNeg (to_float s) = false := by
  unfold to_float
  dsimp only
  have ht : '-' ∉ replace1 '-' ['0'] (replaceRM (replace1 ',' [] s.data)) :=
    not_mem_replace1 (by decide) _
  have hstr : '-' ∉ (pyStrip ⟨replace1 '-' ['0'] (replaceRM (replace1 ',' [] s.data))⟩).data :=
    fun hc => ht (mem_stripChars hc)
  split
  · rename_i f hf
    exact pythonFloat_not_neg hstr hf
  · rfl

/-! Theorems settling the claims. -/

/-- C9: the numeric coercion never returns a negative number for any input
string, because every minus character is replaced by a zero digit before
parsing; in particular the input "-500" coerces to 500.0, not -500.0. -/
theorem c9_to_float_never_negative :
    (∀ s : String, isNeg (to_float s) = false) ∧ to_float "-500" = .finite (mkRat 500 1) :=
  ⟨to_float_nonneg, by decide⟩

/-- C4 counterexample: on the input string "inf" the numeric coercion
returns positive infinity, which is not finite, so the claim that
coerceNumber always returns a finite number fails on the code. -/
theorem c4_cex_to_float_inf_not_finite :
    to_float "inf" = .inf ∧ isFinite (to_float "inf") = false := by
  exact ⟨by decide, by decide⟩

/-- C4 amended: the numeric coercion is a total function that never raises:
for every cell value (string, missing, numeric or datetime) it returns a
float, and that float is finite, positive infinity, or NaN — never negative
infinity; finiteness fails only for inputs whose transformed text parses as
an IEEE infinity or NaN (such as "inf", "nan", or out-of-range literals). -/
theorem c4_to_float_total_classification (c : Cell) :
    isFinite (to_float (cellStr c)) = true ∨ to_float (cellStr c) = .inf
      ∨ to_float (cellStr c) = .nan := by
  have h := to_float_nonneg (cellStr c)
  cases hf : to_float (cellStr c) with
  | finite q => exact Or.inl rfl
  | inf => exact Or.inr (Or.inl rfl)
  | ninf => rw [hf] at h; exact absurd h (by decide)
  | nan => exact Or.inr (Or.inr rfl)

/-- C2 counterexample: a pending row whose App_Date is NaT is assigned the
"90+ Days" bucket, not "0-30 Days", and its Age_Days is NaN, not 0. -/
theorem c2_cex_nat_date_goes_oldest_bucket :
    isPending natDateRow = true
    ∧ agingBucketOf ⟨2026, 1, 1⟩ natDateRow = "90+ Days"
    ∧ agingBucketOf ⟨2026, 1, 1⟩ natDateRow ≠ "0-30 Days"
    ∧ ageDaysOf ⟨2026, 1, 1⟩ natDateRow.date ≠ .finite 0 := by
  refine ⟨by decide, by decide, by decide, by decide⟩

/-- C2 amended: for every pending row whose Date value is unparseable
(App_Date is NaT), Age_Days is NaN — the timedelta against a missing date is
missing, and NaN fails every comparison — so the row lands in the "90+ Days"
bucket; Age_Days = 0 with bucket "0-30 Days" would occur only for a dataset
lacking the App_Date column entirely, which load_data never produces. -/
theorem c2_nat_date_age_nan_bucket_90plus (today : CalDate) (r : Row)
    (h : r.date = Option.none) :
    ageDaysOf today r.date = .nan ∧ agingBucketOf today r = "90+ Days" := by
  rw [agingBucketOf, h]
  exact ⟨rfl, rfl⟩

/-- C2 amended witness: the amended statement evaluated on a concrete NaT
row. -/
theorem c2_nat_date_age_nan_bucket_90plus_witness :
    ageDaysOf ⟨2026, 1, 1⟩ natDateRow.date = .nan
    ∧ agingBucketOf ⟨2026, 1, 1⟩ natDateRow = "90+ Days" :=
  c2_nat_date_age_nan_bucket_90plus ⟨2026, 1, 1⟩ natDateRow (by decide)

lemma handleDate_time_indep {t : Table} (h : "App_Date" ∈ t.headers) (n1 n2 : CalDate) :
    handleDate n1 t = handleDate n2 t := by
  simp only [handleDate, if_pos h]

/-- C1 counterexample: on a table with an Amount synonym but no Date column,
two runs of the loader at different current times synthesize different
App_Date values, so the loaded datasets are not field-for-field equal. -/
theorem c1_cex_loadData_depends_on_now :
    loadData noDateTable ⟨2026, 1, 1⟩ ≠ loadData noDateTable ⟨2026, 1, 2⟩ := by decide

/-- C1 amended: the loader is deterministic as a pure function of the raw
input and the current timestamp; whenever the (stripped, renamed) headers
contain an App_Date column — including when its values are unparseable,
which deterministically coerce to NaT — the result is independent of the
timestamp, so re-running on byte-identical input gives field-for-field equal
datasets. Only inputs with no Date column at all get the current time
stamped into every row and therefore differ across runs (in-process, the
st.cache_data memoization masks this by replaying the first result). -/
theorem c1_loadData_deterministic_when_date_resolves (t : Table) (n1 n2 : CalDate)
    (h : "App_Date" ∈ applyRenames (renamedCols (t.headers.map pyStrip)) (t.headers.map pyStrip)) :
    loadData t n1 = loadData t n2 := by
  unfold loadData
  dsimp only
  split
  · rw [handleDate_time_indep h]
  · rfl

/-- C1 amended witness: a table whose PO_Date column holds one parseable and
one unparseable date loads identically at two different timestamps. -/
theorem c1_loadData_deterministic_witness :
    "App_Date" ∈ applyRenames (renamedCols (dateTable.headers.map pyStrip)) (dateTable.headers.map pyStrip)
    ∧ loadData dateTable ⟨2026, 3, 1⟩ = loadData dateTable ⟨2027, 7, 9⟩ :=
  ⟨by decide, c1_loadData_deterministic_when_date_resolves dateTable _ _ (by decide)⟩

lemma amountRename_snd {cols : List String} {p : String × String}
    (h : p ∈ amountRename cols) : p.2 = "App_Amount" := by
  unfold amountRename at h
  split_ifs at h <;> simp_all

lemma poValueRename_snd {cols : List String} {p : String × String}
    (h : p ∈ poValueRename cols) : p.2 = "App_PO_Value" := by
  unfold poValueRename at h
  split_ifs at h <;> simp_all

lemma percentRename_snd {cols : List String} {p : String × String}
    (h : p ∈ percentRename cols) : p.2 = "App_Percent" := by
  unfold percentRename at h
  split_ifs at h <;> simp_all

lemma dateRename_snd {cols : List String} {p : String × String}
    (h : p ∈ dateRename cols) : p.2 = "App_Date" := by
  unfold dateRename at h
  split_ifs at h <;> simp_all

lemma vendorRename_snd {cols : List String} {p : String × String}
    (h : p ∈ vendorRename cols) : p.2 = "Vendor_Name" := by
  unfold vendorRename at h
  split_ifs at h <;> simp_all

lemma pmRename_snd {cols : List String} {p : String × String}
    (h : p ∈ pmRename cols) : p.2 = "Project_Manager" := by
  unfold pmRename at h
  split_ifs at h <;> simp_all

lemma amountRename_eq_nil {cols : List String}
    (h : ∀ c ∈ cols, c ∉ (["App_Amount", "Total_Paid", "Payment Amount", "Total Paid"] : List String)) :
    amountRename cols = [] := by
  have h1 : "App_Amount" ∉ cols := fun hm => h _ hm (by decide)
  have h2 : "Total_Paid" ∉ cols := fun hm => h _ hm (by decide)
  have h3 : "Payment Amount" ∉ cols := fun hm => h _ hm (by decide)
  have h4 : "Total Paid" ∉ cols := fun hm => h _ hm (by decide)
  simp [amountRename, h1, h2, h3, h4]

lemma renamedCols_amount_mem {cols : List String} {p : String × String}
    (hp : p ∈ renamedCols cols) (h2 : p.2 = "App_Amount") : p ∈ amountRename cols := by
  unfold renamedCols at hp
  simp only [List.mem_append, or_assoc] at hp
  rcases hp with h | h | h | h | h | h
  · exact h
  · have := poValueRename_snd h; rw [h2] at this; exact absurd this (by decide)
  · have := percentRename_snd h; rw [h2] at this; exact absurd this (by decide)
  · have := dateRename_snd h; rw [h2] at this; exact absurd this (by decide)
  · have := vendorRename_snd h; rw [h2] at this; exact absurd this (by decide)
  · have := pmRename_snd h; rw [h2] at this; exact absurd this (by decide)

lemma app_amount_not_mem_applyRenames {cols : List String}
    (h : ∀ c ∈ cols, c ∉ (["App_Amount", "Total_Paid", "Payment Amount", "Total Paid"] : List String)) :
    "App_Amount" ∉ applyRenames (renamedCols cols) cols := by
  intro hmem
  unfold applyRenames at hmem
  rw [List.mem_map] at hmem
  obtain ⟨c, hc, heq⟩ := hmem
  cases hfind : (renamedCols cols).find? (fun p => p.1 == c) with
  | none =>
      simp only [hfind] at heq
      exact h c hc (by rw [heq]; decide)
  | some p =>
      simp only [hfind] at heq
      have hpmem := List.mem_of_find?_eq_some hfind
      have := renamedCols_amount_mem hpmem heq
      rw [amountRename_eq_nil h] at this
      exact absurd this (List.not_mem_nil p)

/-- C6: whenever the stripped raw headers contain no Amount synonym and no
already-canonical App_Amount column, the loader returns the
missing-required-column failure naming App_Amount together with the full
(post-rename) list of columns actually found; it neither crashes nor
returns a partial dataset. -/
theorem c6_missing_amount_failure (t : Table) (now : CalDate)
    (h : ∀ c ∈ t.headers.map pyStrip,
      c ∉ (["App_Amount", "Total_Paid", "Payment Amount", "Total Paid"] : List String)) :
    loadData t now = .error (.missingRequiredColumn "App_Amount"
      (applyRenames (renamedCols (t.headers.map pyStrip)) (t.headers.map pyStrip))) := by
  unfold loadData
  dsimp only
  rw [if_neg (app_amount_not_mem_applyRenames h)]

/-- C6 witness: a table with headers Vendor and Remarks fails with the
missing App_Amount error that lists the found columns (Vendor already
renamed to Vendor_Name by the other chains). -/
theorem c6_missing_amount_failure_witness :
    (∀ c ∈ noAmountTable.headers.map pyStrip,
       c ∉ (["App_Amount", "Total_Paid", "Payment Amount", "Total Paid"] : List String))
    ∧ loadData noAmountTable ⟨2026, 1, 1⟩ = .error (.missingRequiredColumn "App_Amount"
        (applyRenames (renamedCols (noAmountTable.headers.map pyStrip))
          (noAmountTable.headers.map pyStrip))) :=
  ⟨by decide, c6_missing_amount_failure noAmountTable ⟨2026, 1, 1⟩ (by decide)⟩

example :
    applyRenames (renamedCols (noAmountTable.headers.map pyStrip))
      (noAmountTable.headers.map pyStrip) = ["Vendor_Name", "Remarks"] := by decide

lemma renamesTo_append (c : String) (l1 l2 : List (String × String)) :
    renamesTo c (l1 ++ l2) = renamesTo c l1 ++ renamesTo c l2 := by
  simp [renamesTo]

lemma renamesTo_eq_nil {c : String} {rcs : List (String × String)}
    (h : ∀ p ∈ rcs, p.2 ≠ c) : renamesTo c rcs = [] := by
  unfold renamesTo
  rw [List.filter_eq_nil_iff]
  intro p hp
  simpa using h p hp

lemma renamesTo_eq_self {c : String} {rcs : List (String × String)}
    (h : ∀ p ∈ rcs, p.2 = c) : renamesTo c rcs = rcs := by
  unfold renamesTo
  rw [List.filter_eq_self]
  intro p hp
  simpa using h p hp

lemma renamesTo_renamedCols_amount (cols : List String) :
    renamesTo "App_Amount" (renamedCols cols) = amountRename cols := by
  unfold renamedCols
  simp only [renamesTo_append]
  rw [renamesTo_eq_self (fun p hp => amountRename_snd hp),
      renamesTo_eq_nil (fun p hp => by rw [poValueRename_snd hp]; decide),
      renamesTo_eq_nil (fun p hp => by rw [percentRename_snd hp]; decide),
      renamesTo_eq_nil (fun p hp => by rw [dateRename_snd hp]; decide),
      renamesTo_eq_nil (fun p hp => by rw [vendorRename_snd hp]; decide),
      renamesTo_eq_nil (fun p hp => by rw [pmRename_snd hp]; decide)]
  simp

lemma renamesTo_renamedCols_po (cols : List String) :
    renamesTo "App_PO_Value" (renamedCols cols) = poValueRename cols := by
  unfold renamedCols
  simp only [renamesTo_append]
  rw [renamesTo_eq_nil (fun p hp => by rw [amountRename_snd hp]; decide),
      renamesTo_eq_self (fun p hp => poValueRename_snd hp),
      renamesTo_eq_nil (fun p hp => by rw [percentRename_snd hp]; decide),
      renamesTo_eq_nil (fun p hp => by rw [dateRename_snd hp]; decide),
      renamesTo_eq_nil (fun p hp => by rw [vendorRename_snd hp]; decide),
      renamesTo_eq_nil (fun p hp => by rw [pmRename_snd hp]; decide)]
  simp

lemma renamesTo_renamedCols_percent (cols : List String) :
    renamesTo "App_Percent" (renamedCols cols) = percentRename cols := by
  unfold renamedCols
  simp only [renamesTo_append]
  rw [renamesTo_eq_nil (fun p hp => by rw [amountRename_snd hp]; decide),
      renamesTo_eq_nil (fun p hp => by rw [poValueRename_snd hp]; decide),
      renamesTo_eq_self (fun p hp => percentRename_snd hp),
      renamesTo_eq_nil (fun p hp => by rw [dateRename_snd hp]; decide),
      renamesTo_eq_nil (fun p hp => by rw [vendorRename_snd hp]; decide),
      renamesTo_eq_nil (fun p hp => by rw [pmRename_snd hp]; decide)]
  simp

lemma renamesTo_renamedCols_date (cols : List String) :
    renamesTo "App_Date" (renamedCols cols) = dateRename cols := by
  unfold renamedCols
  simp only [renamesTo_append]
  rw [renamesTo_eq_nil (fun p hp => by rw [amountRename_snd hp]; decide),
      renamesTo_eq_nil (fun p hp => by rw [poValueRename_snd hp]; decide),
      renamesTo_eq_nil (fun p hp => by rw [percentRename_snd hp]; decide),
      renamesTo_eq_self (fun p hp => dateRename_snd hp),
      renamesTo_eq_nil (fun p hp => by rw [vendorRename_snd hp]; decide),
      renamesTo_eq_nil (fun p hp => by rw [pmRename_snd hp]; decide)]
  simp

lemma renamesTo_renamedCols_vendor (cols : List String) :
    renamesTo "Vendor_Name" (renamedCols cols) = vendorRename cols := by
  unfold renamedCols
  simp only [renamesTo_append]
  rw [renamesTo_eq_nil (fun p hp => by rw [amountRename_snd hp]; decide),
      renamesTo_eq_nil (fun p hp => by rw [poValueRename_snd hp]; decide),
      renamesTo_eq_nil (fun p hp => by rw [percentRename_snd hp]; decide),
      renamesTo_eq_nil (fun p hp => by rw [dateRename_snd hp]; decide),
      renamesTo_eq_self (fun p hp => vendorRename_snd hp),
      renamesTo_eq_nil (fun p hp => by rw [pmRename_snd hp]; decide)]
  simp

lemma renamesTo_renamedCols_pm (cols : List String) :
    renamesTo "Project_Manager" (renamedCols cols) = pmRename cols := by
  unfold renamedCols
  simp only [renamesTo_append]
  rw [renamesTo_eq_nil (fun p hp => by rw [amountRename_snd hp]; decide),
      renamesTo_eq_nil (fun p hp => by rw [poValueRename_snd hp]; decide),
      renamesTo_eq_nil (fun p hp => by rw [percentRename_snd hp]; decide),
      renamesTo_eq_nil (fun p hp => by rw [dateRename_snd hp]; decide),
      renamesTo_eq_nil (fun p hp => by rw [vendorRename_snd hp]; decide),
      renamesTo_eq_self (fun p hp => pmRename_snd hp)]
  simp

lemma amountRename_eq_chain (cols : List String) :
    amountRename cols = chainRename "App_Amount" ["Total_Paid", "Payment Amount", "Total Paid"] cols := by
  unfold amountRename chainRename
  split_ifs with h0 h1 h2 h3 <;>
    simp_all [List.find?_cons_of_pos, List.find?_cons_of_neg]

lemma poValueRename_eq_chain (cols : List String) :
    poValueRename cols
      = chainRename "App_PO_Value" ["Total_PO_Value", "Total PO Value", "Total PO Value "] cols := by
  unfold poValueRename chainRename
  split_ifs with h0 h1 h2 h3 <;>
    simp_all [List.find?_cons_of_pos, List.find?_cons_of_neg]

lemma percentRename_eq_chain (cols : List String) :
    percentRename cols
      = chainRename "App_Percent" ["Actual_Payment_%", "Payment %", "Actual_Payment_% "] cols := by
  unfold percentRename chainRename
  split_ifs with h0 h1 h2 h3 <;>
    simp_all [List.find?_cons_of_pos, List.find?_cons_of_neg]

lemma dateRename_eq_chain (cols : List String) :
    dateRename cols
      = chainRename "App_Date"
          ["PO_Date", "PO DATE", "PO_Date ", "Invoice Date", "Invoice Date ", "PR DATE"] cols := by
  unfold dateRename chainRename
  split_ifs with h0 h1 h2 h3 h4 h5 h6 <;>
    simp_all [List.find?_cons_of_pos, List.find?_cons_of_neg]

lemma vendorRename_eq_chain (cols : List String) :
    vendorRename cols = chainRename "Vendor_Name" ["Vendor", "VENDOR"] cols := by
  unfold vendorRename chainRename
  split_ifs with h0 h1 h2 <;>
    simp_all [List.find?_cons_of_pos, List.find?_cons_of_neg]

lemma pmRename_eq_chain (cols : List String) :
    pmRename cols = chainRename "Project_Manager" ["Project Manager", "Project Manager "] cols := by
  unfold pmRename chainRename
  split_ifs with h0 h1 h2 <;>
    simp_all [List.find?_cons_of_pos, List.find?_cons_of_neg]

lemma chainRename_spec (canon : String) (syns cols : List String) :
    (canon ∈ cols → chainRename canon syns cols = [])
    ∧ (canon ∉ cols → ∀ s, syns.find? (fun x => decide (x ∈ cols)) = some s →
        chainRename canon syns cols = [(s, canon)]) := by
  constructor
  · intro hc
    simp [chainRename, hc]
  · intro hc s hs
    simp [chainRename, hc, hs]

/-- C5: for every stripped header list and every canonical field of the
decision table, the normalizer adds no rename when the canonical name is
already present, and otherwise renames exactly the first synonym of the
field's priority list that occurs among the headers (so with both
Total_Paid and Payment Amount present, Total_Paid is the one renamed). -/
theorem c5_normalizer_exactly_one (cols : List String) (canon : String) (syns : List String)
    (hf : (canon, syns) ∈ fieldTable) :
    (canon ∈ cols → renamesTo canon (renamedCols cols) = [])
    ∧ (canon ∉ cols → ∀ s, syns.find? (fun x => decide (x ∈ cols)) = some s →
        renamesTo canon (renamedCols cols) = [(s, canon)]) := by
  simp only [fieldTable, List.mem_cons, List.not_mem_nil, or_false, Prod.mk.injEq] at hf
  rcases hf with ⟨rfl, rfl⟩ | ⟨rfl, rfl⟩ | ⟨rfl, rfl⟩ | ⟨rfl, rfl⟩ | ⟨rfl, rfl⟩ | ⟨rfl, rfl⟩
  · rw [renamesTo_renamedCols_amount, amountRename_eq_chain]
    exact chainRename_spec _ _ _
  · rw [renamesTo_renamedCols_po, poValueRename_eq_chain]
    exact chainRename_spec _ _ _
  · rw [renamesTo_renamedCols_percent, percentRename_eq_chain]
    exact chainRename_spec _ _ _
  · rw [renamesTo_renamedCols_date, dateRename_eq_chain]
    exact chainRename_spec _ _ _
  · rw [renamesTo_renamedCols_vendor, vendorRename_eq_chain]
    exact chainRename_spec _ _ _
  · rw [renamesTo_renamedCols_pm, pmRename_eq_chain]
    exact chainRename_spec _ _ _

/-- C5 witness: with both Total_Paid and Payment Amount present and no
canonical App_Amount, exactly Total_Paid is renamed, per priority order. -/
theorem c5_normalizer_exactly_one_witness :
    ("App_Amount", ["Total_Paid", "Payment Amount", "Total Paid"]) ∈ fieldTable
    ∧ "App_Amount" ∉ (["Total_Paid", "Payment Amount"] : List String)
    ∧ renamesTo "App_Amount" (renamedCols ["Total_Paid", "Payment Amount"])
        = [("Total_Paid", "App_Amount")] :=
  ⟨by decide, by decide,
   (c5_normalizer_exactly_one ["Total_Paid", "Payment Amount"] "App_Amount"
       ["Total_Paid", "Payment Amount", "Total Paid"] (by decide)).2
     (by decide) "Total_Paid" (by decide)⟩

lemma head_dropWhile_not {α : Type} (p : α → Bool) :
    ∀ (l : List α) {c : α}, (l.dropWhile p).head? = some c → p c = false := by
  intro l
  induction l with
  | nil => intro c h; simp [List.dropWhile] at h
  | cons a t ih =>
      intro c h
      rw [List.dropWhile_cons] at h
      split at h
      · exact ih h
      · simp at h
        subst h
        simp_all

lemma stripChars_getLast_not_ws {l : List Char} {c : Char}
    (h : (stripChars l).getLast? = some c) : isPyWs c = false := by
  unfold stripChars at h
  rw [List.getLast?_reverse] at h
  exact head_dropWhile_not _ _ h

lemma pyStrip_ne_of_ws_last {s lit : String} {c : Char}
    (hlast : lit.data.getLast? = some c) (hws : isPyWs c = true) : pyStrip s ≠ lit := by
  intro he
  have hd : stripChars s.data = lit.data := congrArg String.data he
  have hf : isPyWs c = false := stripChars_getLast_not_ws (l := s.data) (by rw [hd]; exact hlast)
  rw [hf] at hws
  exact Bool.false_ne_true hws

lemma ws_suffixed_not_mem_strip {lit : String} {c : Char}
    (hlast : lit.data.getLast? = some c) (hws : isPyWs c = true) (raw : List String) :
    lit ∉ raw.map pyStrip := by
  intro hm
  rw [List.mem_map] at hm
  obtain ⟨s, _, he⟩ := hm
  exact pyStrip_ne_of_ws_last hlast hws he

lemma poValueRename_eq_noWS {cols : List String} (h : "Total PO Value " ∉ cols) :
    poValueRename cols = poValueRenameNoWS cols := by
  unfold poValueRename poValueRenameNoWS
  split_ifs <;> simp_all

lemma percentRename_eq_noWS {cols : List String} (h : "Actual_Payment_% " ∉ cols) :
    percentRename cols = percentRenameNoWS cols := by
  unfold percentRename percentRenameNoWS
  split_ifs <;> simp_all

lemma dateRename_eq_noWS {cols : List String} (h1 : "PO_Date " ∉ cols)
    (h2 : "Invoice Date " ∉ cols) : dateRename cols = dateRenameNoWS cols := by
  unfold dateRename dateRenameNoWS
  split_ifs <;> simp_all

lemma pmRename_eq_noWS {cols : List String} (h : "Project Manager " ∉ cols) :
    pmRename cols = pmRenameNoWS cols := by
  unfold pmRename pmRenameNoWS
  split_ifs <;> simp_all

/-- C10: headers are stripped of surrounding whitespace before any synonym
comparison, so the five whitespace-suffixed synonym entries can never match:
on every raw header list the normalizer computes the same rename mapping as
the variant with those entries removed. -/
theorem c10_ws_synonyms_dead (raw : List String) :
    renamedCols (raw.map pyStrip) = renamedColsNoWS (raw.map pyStrip) := by
  have h1 := @ws_suffixed_not_mem_strip "Total PO Value " ' ' (by decide) (by decide) raw
  have h2 := @ws_suffixed_not_mem_strip "Actual_Payment_% " ' ' (by decide) (by decide) raw
  have h3 := @ws_suffixed_not_mem_strip "PO_Date " ' ' (by decide) (by decide) raw
  have h4 := @ws_suffixed_not_mem_strip "Invoice Date " ' ' (by decide) (by decide) raw
  have h5 := @ws_suffixed_not_mem_strip "Project Manager " ' ' (by decide) (by decide) raw
  unfold renamedCols renamedColsNoWS
  rw [poValueRename_eq_noWS h1, percentRename_eq_noWS h2, dateRename_eq_noWS h3 h4,
      pmRename_eq_noWS h5]

lemma pmFilter_eq_filter (pmSel : Option String) (df : List Row) :
    pmFilter pmSel df = df.filter (pmPred pmSel) := by
  cases pmSel with
  | none => exact (List.filter_eq_self.mpr (fun r _ => rfl)).symm
  | some p => exact List.filter_congr (fun r _ => rfl)

lemma vendorFilter_eq_filter (search : String) (df : List Row) :
    vendorFilter search df = df.filter (vendorPred search) := by
  by_cases h : search = ""
  · subst h
    exact (List.filter_eq_self.mpr (fun r _ => rfl)).symm
  · rw [vendorFilter, if_neg h]
    exact List.filter_congr (fun r _ => by simp [vendorPred, h])

lemma statusFilter_eq_filter (s : StatusFilter) (df : List Row) :
    statusFilter s df = df.filter (statusPred s) := by
  cases s with
  | all => exact (List.filter_eq_self.mpr (fun r _ => rfl)).symm
  | fullyPaid => exact List.filter_congr (fun r _ => rfl)
  | pending => exact List.filter_congr (fun r _ => rfl)

lemma df_view_eq_filter (df : List Row) (pmSel : Option String) (search : String)
    (s : StatusFilter) :
    df_view df pmSel search s
      = df.filter (fun r => pmPred pmSel r && (vendorPred search r && statusPred s r)) := by
  unfold df_view
  rw [pmFilter_eq_filter, vendorFilter_eq_filter, statusFilter_eq_filter,
      List.filter_filter, List.filter_filter]
  apply List.filter_congr
  intro r _
  cases pmPred pmSel r <;> cases vendorPred search r <;> cases statusPred s r <;> rfl

lemma df_view_idem (df : List Row) (pmSel : Option String) (search : String)
    (s : StatusFilter) :
    df_view (df_view df pmSel search s) pmSel search s = df_view df pmSel search s := by
  rw [df_view_eq_filter, df_view_eq_filter, List.filter_filter]
  apply List.filter_congr
  intro r _
  cases pmPred pmSel r <;> cases vendorPred search r <;> cases statusPred s r <;> rfl

lemma df_view_none_all (df : List Row) : df_view df Option.none "" .all = df := by
  simp [df_view, pmFilter, vendorFilter, statusFilter]

/-- C3 counterexample: the Total Payments KPI is computed over the full
loaded dataset, not the filtered view: with two rows and a PM filter
selecting only the first, the displayed total differs from the sum of
Amount over the view rows. -/
theorem c3_cex_totals_ignore_view :
    total_spend exDf ≠ pySum ((df_view exDf (some "Alice") "" .all).map Row.amount) := by
  with_unfolding_all decide

/-- C3 amended: the KPI totals sum over the full loaded dataset (so they
equal the sum over exactly the view rows precisely when the filters select
every row, in particular under the default All/empty filters), and
re-applying the same filter predicates leaves the view — hence every total
derived from it — unchanged. -/
theorem c3_totals_full_dataset_refilter_idempotent (df : List Row) (pmSel : Option String)
    (search : String) (s : StatusFilter) :
    df_view (df_view df pmSel search s) pmSel search s = df_view df pmSel search s
    ∧ df_view df Option.none "" .all = df
    ∧ total_spend (df_view df Option.none "" .all) = pySum (df.map Row.amount)
    ∧ total_po_value (df_view df Option.none "" .all) = pySum (df.map Row.poValue) := by
  refine ⟨df_view_idem df pmSel search s, df_view_none_all df, ?_, ?_⟩
  · rw [df_view_none_all]; rfl
  · rw [df_view_none_all]; rfl

lemma get_age_bucket_mem (d : PyFloat) : get_age_bucket d ∈ ageBucketLabels := by
  unfold get_age_bucket ageBucketLabels
  split_ifs <;> simp

lemma sum_map_indicator_zero (x : String) (c : Bool) :
    ∀ (labels : List String), x ∉ labels →
      (labels.map fun lab => if x == lab && c then (1 : Nat) else 0).sum = 0 := by
  intro labels
  induction labels with
  | nil => intro _; rfl
  | cons lab rest ih =>
      intro hx
      have hxl : ¬ x = lab := fun e => hx (e ▸ List.mem_cons_self _ _)
      have hb : (x == lab) = false := beq_eq_false_iff_ne.mpr hxl
      rw [List.map_cons, List.sum_cons, hb, ih (fun hm => hx (List.mem_cons_of_mem _ hm))]
      simp

lemma sum_map_indicator (x : String) (c : Bool) :
    ∀ (labels : List String), labels.Nodup → x ∈ labels →
      (labels.map fun lab => if x == lab && c then (1 : Nat) else 0).sum
        = if c then 1 else 0 := by
  intro labels
  induction labels with
  | nil => intro _ hx; exact absurd hx (List.not_mem_nil x)
  | cons lab rest ih =>
      intro hnd hx
      rcases List.mem_cons.mp hx with rfl | hx'
      · have hrest : x ∉ rest := (List.nodup_cons.mp hnd).1
        rw [List.map_cons, List.sum_cons, sum_map_indicator_zero x c rest hrest,
           beq_self_eq_true]
        cases c <;> simp
      · have hlab : ¬ x = lab := fun e => (List.nodup_cons.mp hnd).1 (e ▸ hx')
        have hb : (x == lab) = false := beq_eq_false_iff_ne.mpr hlab
        rw [List.map_cons, List.sum_cons, hb, ih (List.nodup_cons.mp hnd).2 hx']
        simp

lemma sum_counts_partition {α : Type} (f : α → String) (p : α → Bool) (labels : List String)
    (hnd : labels.Nodup) :
    ∀ (l : List α), (∀ a ∈ l, f a ∈ labels) →
      (labels.map fun lab => (l.filter (fun x => f x == lab && p x)).length).sum
        = (l.filter p).length := by
  intro l
  induction l with
  | nil => intro _; simp
  | cons a t ih =>
      intro hf
      have hft := ih (fun x hx => hf x (List.mem_cons_of_mem _ hx))
      have hfa := hf a (List.mem_cons_self _ _)
      have hmap : (labels.map fun lab => ((a :: t).filter (fun x => f x == lab && p x)).length)
          = labels.map (fun lab => (if f a == lab && p a then (1 : Nat) else 0)
              + (t.filter (fun x => f x == lab && p x)).length) := by
        apply List.map_congr_left
        intro lab _
        by_cases hq : (f a == lab && p a) = true
        · simp [List.filter_cons, hq, Nat.add_comm]
        · simp [List.filter_cons, hq]
      rw [hmap, List.sum_map_add, sum_map_indicator (f a) (p a) labels hnd hfa, hft]
      by_cases hp : p a = true <;> simp [List.filter_cons, hp, Nat.add_comm]

/-- C7 counterexample: pendingCount (pending_pos) is computed over the full
dataset while the aging buckets are computed over the filtered view, so with
one pending row and a PM filter excluding it the bucket counts sum to 0
while pendingCount is 1. -/
theorem c7_cex_counts_vs_pending_pos :
    (ageBucketLabels.map (agingCount ⟨2026, 3, 1⟩ (df_view [rowA] (some "Bob") "" .all))).sum
      ≠ pending_pos [rowA] := by decide

/-- C7 amended: every pending row of the view is assigned exactly one of the
four bucket labels; the bucket counts (pandas count of the non-missing count
column) sum to the number of pending view rows with a non-missing count
value; and this equals pending_pos — which the source computes over the full
dataset — exactly when no filter is active and every pending row carries a
count value. -/
theorem c7_aging_partition (df : List Row) (pmSel : Option String) (search : String)
    (s : StatusFilter) (today : CalDate) :
    (∀ r ∈ pending_df (df_view df pmSel search s), agingBucketOf today r ∈ ageBucketLabels)
    ∧ (ageBucketLabels.map (agingCount today (df_view df pmSel search s))).sum
        = ((pending_df (df_view df pmSel search s)).filter (fun r => r.poNo.isSome)).length
    ∧ ((pmSel = Option.none ∧ search = "" ∧ s = .all
          ∧ ∀ r ∈ pending_df (df_view df pmSel search s), r.poNo.isSome = true) →
        (ageBucketLabels.map (agingCount today (df_view df pmSel search s))).sum
          = pending_pos df) := by
  have hpart := sum_counts_partition (agingBucketOf today) (fun r => r.poNo.isSome)
    ageBucketLabels (by decide) (pending_df (df_view df pmSel search s))
    (fun r _ => get_age_bucket_mem _)
  refine ⟨fun r _ => get_age_bucket_mem _, hpart, ?_⟩
  rintro ⟨rfl, rfl, rfl, hall⟩
  have h2 : ((pending_df (df_view df Option.none "" .all)).filter
      (fun r => r.poNo.isSome)).length = pending_pos df := by
    rw [List.filter_eq_self.mpr hall, df_view_none_all]
    rfl
  exact hpart.trans h2

/-- C7 amended witness: on the example dataset with no filters every pending
row has a PO number, and the bucket counts sum to pending_pos. -/
theorem c7_aging_partition_witness :
    (ageBucketLabels.map (agingCount ⟨2026, 3, 1⟩ (df_view exDf Option.none "" .all))).sum
      = pending_pos exDf :=
  (c7_aging_partition exDf Option.none "" .all ⟨2026, 3, 1⟩).2.2 ⟨rfl, rfl, rfl, by decide⟩

lemma monthly_stats_map_ym (view : List Row) :
    (monthly_stats view).map MonthRow.ym = monthlyKeys view := by
  unfold monthly_stats
  rw [List.map_map]
  exact List.map_id _

lemma monthlyKeys_sorted (view : List Row) : List.Sorted ymLe (monthlyKeys view) :=
  List.sorted_insertionSort ymLe _

lemma mem_monthlyKeys {view : List Row} {r : Row} {k : Int × Nat}
    (hr : r ∈ view) (hk : ymKey r = some k) : k ∈ monthlyKeys view := by
  unfold monthlyKeys
  rw [List.mem_insertionSort, List.mem_dedup]
  exact List.mem_filterMap.mpr ⟨r, hr, hk⟩

/-- C8: monthly_stats groups the view rows by calendar year-month of
App_Date, in chronological order, with Paid and PO_Value the sums of the
group's rows and Outstanding = PO_Value - Paid; rows whose year-month key
occurs are represented, and on the two example rows dated 2026-01-15
(paid 100, PO 150) and 2026-02-10 (paid 200, PO 200) the result is
[("2026-01", 100, 150, 50), ("2026-02", 200, 200, 0)] in that order. -/
theorem c8_monthly_flow (view : List Row) :
    List.Sorted ymLe ((monthly_stats view).map MonthRow.ym)
    ∧ (∀ m ∈ monthly_stats view,
        m.paid = pySum ((view.filter (fun r => ymKey r == some m.ym)).map Row.amount)
        ∧ m.poValue = pySum ((view.filter (fun r => ymKey r == some m.ym)).map Row.poValue)
        ∧ m.outstanding = pySub m.poValue m.paid)
    ∧ (∀ r ∈ view, ∀ k, ymKey r = some k → k ∈ (monthly_stats view).map MonthRow.ym)
    ∧ monthly_stats exDf
        = [⟨(2026, 1), .finite (mkRat 100 1), .finite (mkRat 150 1), .finite (mkRat 50 1)⟩,
           ⟨(2026, 2), .finite (mkRat 200 1), .finite (mkRat 200 1), .finite 0⟩]
    ∧ (monthly_stats exDf).map (fun m => ymStr m.ym) = ["2026-01", "2026-02"] := by
  refine ⟨?_, ?_, ?_, ?_, ?_⟩
  · rw [monthly_stats_map_ym]
    exact monthlyKeys_sorted view
  · intro m hm
    unfold monthly_stats at hm
    rw [List.mem_map] at hm
    obtain ⟨k, hk, rfl⟩ := hm
    exact ⟨rfl, rfl, rfl⟩
  · intro r hr k hk
    rw [monthly_stats_map_ym]
    exact mem_monthlyKeys hr hk
  · with_unfolding_all decide
  · with_unfolding_all decide

/-- C8 witness: the January group of the example dataset is present and its
Paid field is the sum of Amount over exactly the January rows. -/
theorem c8_monthly_flow_witness :
    (⟨(2026, 1), .finite (mkRat 100 1), .finite (mkRat 150 1), .finite (mkRat 50 1)⟩ : MonthRow)
        ∈ monthly_stats exDf
    ∧ (⟨(2026, 1), .finite (mkRat 100 1), .finite (mkRat 150 1), .finite (mkRat 50 1)⟩ : MonthRow).paid
        = pySum ((exDf.filter (fun r => ymKey r == some (2026, 1))).map Row.amount) :=
  ⟨by with_unfolding_all decide,
   ((c8_monthly_flow exDf).2.1 _ (by with_unfolding_all decide)).1⟩
